import Mathlib

/-!
Verification development for the InvenEase backend authentication core.

The definitions below are a shallow embedding of the TypeScript sources:
`src/modules/auth/auth.service.ts`, `src/common/services/security.service.ts`,
`src/common/middleware/auth.middleware.ts`, `src/common/config/jwt.ts`
(appended to `env.ts`), the Socket.IO gateway (`socket.ts`) and the logging
service (`logging.service.ts`).  Stateful Prisma calls become explicit state
passing over a `DB` record; each `await`ed write is one separately committed
state transition.  Timestamps are integers (milliseconds); external
collaborators (bcrypt, jsonwebtoken signing) are modelled by injective
deterministic functions.
-/

namespace InvenEase

/-- Milliseconds since epoch, as in JS `Date.getTime()`. -/
abbrev Time := Int

/-- `AppError` from `src/common/utils/errorHandler.ts`: message + HTTP status. -/
structure AppError where
  message : String
  statusCode : Nat
deriving DecidableEq, Repr

def UNAUTHORIZED : Nat := 401
def FORBIDDEN : Nat := 403
def BAD_REQUEST : Nat := 400
def NOT_FOUND : Nat := 404
def CONFLICT : Nat := 409
def TOO_MANY_REQUESTS : Nat := 429

/-- `Role` enum from the Prisma schema. -/
inductive Role where
  | ADMIN | MANAGER | STAFF
deriving DecidableEq, Repr

/-- `TokenType` enum from the Prisma schema. -/
inductive TokenType where
  | ACCESS | REFRESH | EMAIL_VERIFICATION | PASSWORD_RESET
deriving DecidableEq, Repr

def Role.toStr : Role → String
  | .ADMIN => "ADMIN"
  | .MANAGER => "MANAGER"
  | .STAFF => "STAFF"

def TokenType.toStr : TokenType → String
  | .ACCESS => "ACCESS"
  | .REFRESH => "REFRESH"
  | .EMAIL_VERIFICATION => "EMAIL_VERIFICATION"
  | .PASSWORD_RESET => "PASSWORD_RESET"

/-- Model of `bcrypt.hash(password, 10)`: deterministic injective digest. -/
def bcryptHash (password : String) : String := "$2a$10$" ++ password

/-- Model of `bcrypt.compare(password, hash)`. -/
def bcryptCompare (password hash : String) : Bool := bcryptHash password == hash

/-! ## JWT model (`src/common/config/jwt.ts`, appended to `env.ts`)

`jwt.sign` produces `base64url(header) . base64url(payloadJson) . signature`.
A signed token is modelled symbolically as payload + signing secret + expiry
(so that `jwt.verify` is expressible), together with a concrete string
rendering `encodeJwt` reproducing the base64url wire format (the stored
`Token.token` column), which is what Prisma's `contains` filter sees. -/

structure JwtPayload where
  userId : String
  email : String
  role : Role
  tokenId : Option String
  type : Option TokenType
deriving DecidableEq, Repr

structure SignedToken where
  payload : JwtPayload
  secret : String
  iat : Time
  exp : Time
deriving DecidableEq, Repr

/-- Per-token-type secrets and expiry durations (ms), from `tokenConfigs`.
The env sections are configuration inputs; durations are nonnegative. -/
structure JwtConfig where
  accessSecret : String
  refreshSecret : String
  emailSecret : String
  passwordSecret : String
  accessExpiresInMs : Nat
  refreshExpiresInMs : Nat
  emailExpiresInMs : Nat
  passwordResetExpiresInMs : Nat
deriving DecidableEq, Repr

def tokenSecret (cfg : JwtConfig) : TokenType → String
  | .ACCESS => cfg.accessSecret
  | .REFRESH => cfg.refreshSecret
  | .EMAIL_VERIFICATION => cfg.emailSecret
  | .PASSWORD_RESET => cfg.passwordSecret

def tokenExpiresInMs (cfg : JwtConfig) : TokenType → Nat
  | .ACCESS => cfg.accessExpiresInMs
  | .REFRESH => cfg.refreshExpiresInMs
  | .EMAIL_VERIFICATION => cfg.emailExpiresInMs
  | .PASSWORD_RESET => cfg.passwordResetExpiresInMs

/-- `generateToken(payload, tokenType)`: picks the per-type secret and expiry,
computes `expiresAt = now + duration`, signs `{...payload, type: tokenType}`. -/
def generateToken (cfg : JwtConfig) (now : Time) (payload : JwtPayload)
    (tokenType : TokenType) : SignedToken × Time :=
  let expiresAt : Time := now + (tokenExpiresInMs cfg tokenType : Int)
  ({ payload := { payload with type := some tokenType }
     secret := tokenSecret cfg tokenType
     iat := now
     exp := expiresAt }, expiresAt)

/-- `verifyToken(token, tokenType)`: `jwt.verify` against the per-type secret.
A wrong-secret (wrong-type) token fails signature validation («Invalid
token»); an expired one fails with «Token expired». -/
def verifyToken (cfg : JwtConfig) (now : Time) (token : SignedToken)
    (tokenType : TokenType) : Except AppError JwtPayload :=
  if token.secret ≠ tokenSecret cfg tokenType then
    .error ⟨"Invalid token", UNAUTHORIZED⟩
  else if token.exp ≤ now then
    .error ⟨"Token expired", UNAUTHORIZED⟩
  else
    .ok token.payload

/-! ### Concrete wire rendering (base64url, as in RFC 7515 JWS compact form) -/

def base64urlAlphabet : List Char :=
  "ABCDEFGHIJKLMNOPQRSTUVWXYZabcdefghijklmnopqrstuvwxyz0123456789-_".toList

def b64Char (n : Nat) : Char := base64urlAlphabet.getD n 'A'

/-- Base64url encoding (no padding) of a byte list, 3 bytes → 4 chars. -/
def base64urlEncode : List Nat → List Char
  | [] => []
  | [a] => [b64Char (a / 4), b64Char (a % 4 * 16)]
  | [a, b] => [b64Char (a / 4), b64Char (a % 4 * 16 + b / 16), b64Char (b % 16 * 4)]
  | a :: b :: c :: rest =>
      b64Char (a / 4) :: b64Char (a % 4 * 16 + b / 16) ::
      b64Char (b % 16 * 4 + c / 64) :: b64Char (c % 64) :: base64urlEncode rest

def strBytes (s : String) : List Nat := s.toList.map Char.toNat

def b64Str (s : String) : String := String.mk (base64urlEncode (strBytes s))

def jsonStrField (key value : String) : String := "\"" ++ key ++ "\":\"" ++ value ++ "\""

/-- JSON rendering of the claims set `{...payload, type, iat, exp}` signed by
`jwt.sign`. -/
def jsonOfPayload (p : JwtPayload) (iat exp : Time) : String :=
  "\x7b" ++ jsonStrField "userId" p.userId ++ "," ++ jsonStrField "email" p.email ++
  "," ++ jsonStrField "role" p.role.toStr ++
  (match p.tokenId with
   | some tid => "," ++ jsonStrField "tokenId" tid
   | none => "") ++
  (match p.type with
   | some t => "," ++ jsonStrField "type" t.toStr
   | none => "") ++
  ",\"iat\":" ++ toString iat ++ ",\"exp\":" ++ toString exp ++ "\x7d"

/-- The stored token string: `base64url(header).base64url(claims).signature`.
The HMAC signature is abstracted as a deterministic base64url blob. -/
def encodeJwt (t : SignedToken) : String :=
  b64Str "\x7b\"alg\":\"HS256\",\"typ\":\"JWT\"\x7d" ++ "." ++
  b64Str (jsonOfPayload t.payload t.iat t.exp) ++ "." ++
  b64Str ("sig:" ++ t.secret ++ ":" ++ jsonOfPayload t.payload t.iat t.exp)

/-! ### Substring containment (Prisma `contains` string filter) -/

def listIsPrefixOf : List Char → List Char → Bool
  | [], _ => true
  | _ :: _, [] => false
  | a :: as, b :: bs => a == b && listIsPrefixOf as bs

def listContainsSub (pat : List Char) : List Char → Bool
  | [] => listIsPrefixOf pat []
  | b :: t => listIsPrefixOf pat (b :: t) || listContainsSub pat t

/-- `column contains pat` for Prisma string filters. -/
def strContains (s pat : String) : Bool := listContainsSub pat.toList s.toList

/-! ## Persistent data model (Prisma schema, `prisma/migrations/..._init`) -/

structure User where
  id : String
  email : String
  password : String
  name : String
  role : Role
  isActive : Bool
  isVerified : Bool
  isLocked : Bool
  lockoutExpiry : Option Time
  lastLogin : Option Time
deriving DecidableEq, Repr

structure TokenRec where
  id : String
  token : String
  type : TokenType
  userId : String
  expiresAt : Time
  invalidated : Bool
  lastUsed : Option Time
  ipAddress : Option String
  deviceInfo : Option String
deriving DecidableEq, Repr

structure Session where
  id : String
  userId : String
  lastActive : Time
deriving DecidableEq, Repr

structure LoginAttempt where
  userId : String
  success : Bool
  ipAddress : String
  createdAt : Time
deriving DecidableEq, Repr

structure Notification where
  id : String
  recipientId : String
  seen : Bool
  read : Bool
  createdAt : Time
deriving DecidableEq, Repr

structure ActivityLog where
  entityType : String
  entityId : String
  action : String
  userId : String
deriving DecidableEq, Repr

structure SecurityLog where
  userId : Option String
  event : String
  severity : String
deriving DecidableEq, Repr

structure AuditLog where
  userId : String
  action : String
  resource : String
deriving DecidableEq, Repr

/-- The credential store.  `nextId` seeds generated primary keys (cuids). -/
structure DB where
  users : List User
  tokens : List TokenRec
  sessions : List Session
  loginAttempts : List LoginAttempt
  notifications : List Notification
  activityLogs : List ActivityLog
  securityLogs : List SecurityLog
  auditLogs : List AuditLog
  nextId : Nat
deriving DecidableEq, Repr

def genId (n : Nat) : String := "tok" ++ toString n

def findUserByEmail (db : DB) (email : String) : Option User :=
  db.users.find? (fun u => u.email == email)

def findUserById (db : DB) (uid : String) : Option User :=
  db.users.find? (fun u => u.id == uid)

def findTokenByStr (db : DB) (s : String) : Option TokenRec :=
  db.tokens.find? (fun t => t.token == s)

def findTokenById (db : DB) (tid : String) : Option TokenRec :=
  db.tokens.find? (fun t => t.id == tid)

/-- `prisma.user.update({where: {id}, data})`. -/
def updateUser (db : DB) (uid : String) (f : User → User) : DB :=
  { db with users := db.users.map (fun u => if u.id == uid then f u else u) }

/-- `prisma.token.update` / `updateMany` by predicate. -/
def updateTokens (db : DB) (p : TokenRec → Bool) (f : TokenRec → TokenRec) : DB :=
  { db with tokens := db.tokens.map (fun t => if p t then f t else t) }

def addToken (db : DB) (t : TokenRec) : DB :=
  { db with tokens := db.tokens ++ [t], nextId := db.nextId + 1 }

def addActivityLog (db : DB) (l : ActivityLog) : DB :=
  { db with activityLogs := db.activityLogs ++ [l] }

/-! ## Security Policy Engine (`src/common/services/security.service.ts`)

The `config.security.*` values are configuration inputs (durations already
converted to milliseconds by `parseTimeString`). -/

structure SecurityConfig where
  maxLoginAttempts : Nat
  loginAttemptWindowMs : Nat
  accountLockoutDurationMs : Nat
  maxConcurrentSessions : Nat
deriving DecidableEq, Repr

/-- `lockAccount(userId)`: sets the lock flag and `lockoutExpiry = now + D`. -/
def lockAccount (scfg : SecurityConfig) (now : Time) (db : DB) (uid : String) : DB :=
  updateUser db uid (fun u =>
    { u with isLocked := true
             lockoutExpiry := some (now + (scfg.accountLockoutDurationMs : Int)) })

/-- `handleFailedLoginAttempt(email)`: counts failed attempts within the
trailing window, records the new failure, and locks + throws
`TOO_MANY_REQUESTS` when `recentAttempts + 1 ≥ maxLoginAttempts`.  The writes
commit even when the error is thrown, so the state is returned alongside. -/
def handleFailedLoginAttempt (scfg : SecurityConfig) (now : Time) (db : DB)
    (email : String) : DB × Except AppError Unit :=
  match findUserByEmail db email with
  | none => (db, .ok ())
  | some user =>
    let windowStart : Time := now - (scfg.loginAttemptWindowMs : Int)
    let recentAttempts :=
      (db.loginAttempts.filter (fun a =>
        a.userId == user.id && a.success == false && windowStart ≤ a.createdAt)).length
    let db₁ := { db with loginAttempts :=
      db.loginAttempts ++ [⟨user.id, false, "IP_ADDRESS", now⟩] }
    if scfg.maxLoginAttempts ≤ recentAttempts + 1 then
      (lockAccount scfg now db₁ user.id,
       .error ⟨"Account locked due to too many failed attempts", TOO_MANY_REQUESTS⟩)
    else
      (db₁, .ok ())

/-- `isAccountLocked(userId)`: lazily clears an expired lockout. -/
def isAccountLocked (now : Time) (db : DB) (uid : String) : DB × Bool :=
  match findUserById db uid with
  | none => (db, false)
  | some user =>
    if user.isLocked = false then (db, false)
    else
      match user.lockoutExpiry with
      | some expiry =>
        if expiry < now then
          (updateUser db uid (fun u => { u with isLocked := false, lockoutExpiry := none }),
           false)
        else (db, true)
      | none => (db, true)

/-- Stable descending sort by an integer key (Prisma `orderBy ... desc`). -/
def sortByDesc (key : α → Time) (l : List α) : List α :=
  l.insertionSort (fun a b => key b ≤ key a)

/-- `manageSessions(userId, newSessionId)`: when the user's session count is
at or above the maximum, deletes all but the `max - 1` most recently active
sessions, then inserts the new session. -/
def manageSessions (scfg : SecurityConfig) (now : Time) (db : DB)
    (uid newSessionId : String) : DB :=
  let sessions := sortByDesc (fun s => s.lastActive) (db.sessions.filter (fun s => s.userId == uid))
  let db₁ :=
    if scfg.maxConcurrentSessions ≤ sessions.length then
      let sessionsToRemove := sessions.drop (scfg.maxConcurrentSessions - 1)
      let removeIds := sessionsToRemove.map (fun s => s.id)
      { db with sessions := db.sessions.filter (fun s => !(removeIds.contains s.id)) }
    else db
  { db₁ with sessions := db₁.sessions ++ [⟨newSessionId, uid, now⟩] }

/-! ## Security/Audit Logger (`logging.service.ts`)

`config.monitoring.*` flags gate the writes.  The store write may reject;
the catch block swallows the error (logging it to the console only), so the
functions are total and never propagate a failure to their caller.  The
`storeOk` flag models whether the underlying `prisma.*.create` succeeds. -/

structure MonitoringConfig where
  enableSecurityLogs : Bool
  enableAuditLogs : Bool
deriving DecidableEq, Repr

/-- The raw `prisma.securityLog.create`, which can reject. -/
def securityLogCreate (storeOk : Bool) (db : DB) (rec : SecurityLog) :
    Except AppError DB :=
  if storeOk then .ok { db with securityLogs := db.securityLogs ++ [rec] }
  else .error ⟨"An unexpected error occurred.", 500⟩

/-- The raw `prisma.auditLog.create`, which can reject. -/
def auditLogCreate (storeOk : Bool) (db : DB) (rec : AuditLog) :
    Except AppError DB :=
  if storeOk then .ok { db with auditLogs := db.auditLogs ++ [rec] }
  else .error ⟨"An unexpected error occurred.", 500⟩

/-- `logSecurityEvent(userId, event, details, severity)`. -/
def logSecurityEvent (mcfg : MonitoringConfig) (storeOk : Bool) (db : DB)
    (userId : Option String) (event : String) (severity : String) : DB :=
  if mcfg.enableSecurityLogs = false then db
  else
    match securityLogCreate storeOk db ⟨userId, event, severity⟩ with
    | .ok db₁ => db₁
    | .error _ => db

/-- `logAuditEvent(userId, action, resource, details)`. -/
def logAuditEvent (mcfg : MonitoringConfig) (storeOk : Bool) (db : DB)
    (userId : String) (action : String) (resource : String) : DB :=
  if mcfg.enableAuditLogs = false then db
  else
    match auditLogCreate storeOk db ⟨userId, action, resource⟩ with
    | .ok db₁ => db₁
    | .error _ => db

/-! ## Auth Orchestrator (`src/modules/auth/auth.service.ts`) -/

structure LoginResult where
  user : User
  accessToken : SignedToken
  accessTokenExpiry : Time
  refreshToken : Option SignedToken
  refreshTokenExpiry : Option Time
deriving DecidableEq, Repr

/-- `login(email, password, ipAddress, deviceInfo, rememberMe)`.  Note: this
flow performs no lockout check and never consults the Security Policy
Engine — exactly as written in the source. -/
def login (cfg : JwtConfig) (now : Time) (db : DB) (email password : String)
    (ipAddress deviceInfo : Option String) (rememberMe : Bool) :
    DB × Except AppError LoginResult :=
  match findUserByEmail db email with
  | none => (db, .error ⟨"Invalid email or password", UNAUTHORIZED⟩)
  | some user =>
    if user.isActive = false then
      (db, .error ⟨"Account is inactive", UNAUTHORIZED⟩)
    else if bcryptCompare password user.password = false then
      (db, .error ⟨"Invalid email or password", UNAUTHORIZED⟩)
    else if user.isVerified = false then
      (db, .error ⟨"Verify your email first", FORBIDDEN⟩)
    else
      let (accessToken, accessExpiresAt) :=
        generateToken cfg now ⟨user.id, user.email, user.role, none, none⟩ .ACCESS
      let accessId := genId db.nextId
      let db₁ := addToken db
        ⟨accessId, encodeJwt accessToken, .ACCESS, user.id, accessExpiresAt,
         false, some now, ipAddress, deviceInfo⟩
      let (db₂, refreshTok, refreshExp) :=
        if rememberMe then
          let (refreshToken, refreshExpiresAt) :=
            generateToken cfg now ⟨user.id, user.email, user.role, some accessId, none⟩ .REFRESH
          let refreshId := genId db₁.nextId
          (addToken db₁
            ⟨refreshId, encodeJwt refreshToken, .REFRESH, user.id, refreshExpiresAt,
             false, some now, ipAddress, deviceInfo⟩,
           some refreshToken, some refreshExpiresAt)
        else (db₁, none, none)
      let db₃ := updateUser db₂ user.id (fun u => { u with lastLogin := some now })
      let db₄ := addActivityLog db₃ ⟨"User", user.id, "LOGIN", user.id⟩
      (db₄, .ok ⟨user, accessToken, accessExpiresAt, refreshTok, refreshExp⟩)

structure RefreshResult where
  accessToken : SignedToken
  accessTokenExpiry : Time
  refreshToken : SignedToken
  refreshTokenExpiry : Time
deriving DecidableEq, Repr

/-- `refreshToken(refreshToken, ipAddress, deviceInfo)`.  Every Prisma call
is a separately `await`ed, separately committed write — there is no
`$transaction` in this flow — so the returned list is the sequence of
externally observable store states, the initial state first and one entry
after each committed write. -/
def refreshTokenFlow (cfg : JwtConfig) (now : Time) (db : DB)
    (refreshTokenStr : String) (ipAddress deviceInfo : Option String) :
    List DB × Except AppError RefreshResult :=
  if refreshTokenStr = "" then
    ([db], .error ⟨"Refresh token is required", BAD_REQUEST⟩)
  else
    match findTokenByStr db refreshTokenStr with
    | none => ([db], .error ⟨"Invalid refresh token", UNAUTHORIZED⟩)
    | some tokenRecord =>
      if tokenRecord.type ≠ TokenType.REFRESH ∨ tokenRecord.invalidated then
        ([db], .error ⟨"Invalid refresh token", UNAUTHORIZED⟩)
      else if tokenRecord.expiresAt < now then
        let db₁ := updateTokens db (fun t => t.id == tokenRecord.id)
          (fun t => { t with invalidated := true })
        ([db, db₁], .error ⟨"Refresh token expired", UNAUTHORIZED⟩)
      else
        match findUserById db tokenRecord.userId with
        | none => ([db], .error ⟨"User not found or inactive", UNAUTHORIZED⟩)
        | some user =>
          if user.isActive = false then
            ([db], .error ⟨"User not found or inactive", UNAUTHORIZED⟩)
          else
            let gAccess :=
              generateToken cfg now ⟨user.id, user.email, user.role, none, none⟩ .ACCESS
            let accessId := genId db.nextId
            let db₁ := addToken db
              ⟨accessId, encodeJwt gAccess.1, .ACCESS, user.id, gAccess.2,
               false, some now, ipAddress, deviceInfo⟩
            let gRefresh :=
              generateToken cfg now ⟨user.id, user.email, user.role, some accessId, none⟩ .REFRESH
            let refreshId := genId db₁.nextId
            let db₂ := addToken db₁
              ⟨refreshId, encodeJwt gRefresh.1, .REFRESH, user.id, gRefresh.2,
               false, some now, ipAddress, deviceInfo⟩
            let db₃ := updateTokens db₂ (fun t => t.id == tokenRecord.id)
              (fun t => { t with invalidated := true })
            let db₄ := updateTokens db₃ (fun t => t.id == accessId || t.id == refreshId)
              (fun t => { t with lastUsed := some now })
            let db₅ := addActivityLog db₄ ⟨"User", user.id, "TOKEN_REFRESH", user.id⟩
            ([db, db₁, db₂, db₃, db₄, db₅],
             .ok ⟨gAccess.1, gAccess.2, gRefresh.1, gRefresh.2⟩)

structure LogoutResult where
  success : Bool
  message : String
deriving DecidableEq, Repr

/-- `logout(userId, tokenId, allDevices)`.  Single-device logout invalidates
the record with the given id together with every REFRESH record of the user
whose *stored token string* contains the id as a substring (the source
comments «This assumes token ID is stored in the refresh token»). -/
def logout (db : DB) (userId : String) (tokenId : Option String)
    (allDevices : Bool) : DB × Except AppError LogoutResult :=
  if userId = "" then
    (db, .error ⟨"User not authenticated", UNAUTHORIZED⟩)
  else if allDevices then
    let db₁ := updateTokens db
      (fun t => t.userId == userId && t.invalidated == false &&
        (t.type == TokenType.ACCESS || t.type == TokenType.REFRESH))
      (fun t => { t with invalidated := true })
    let db₂ := addActivityLog db₁ ⟨"User", userId, "LOGOUT_ALL", userId⟩
    (db₂, .ok ⟨true, "Logged out from all devices"⟩)
  else
    match tokenId with
    | some tid =>
      match findTokenById db tid with
      | none => (db, .error ⟨"Invalid token", UNAUTHORIZED⟩)
      | some token =>
        if token.userId ≠ userId then
          (db, .error ⟨"Invalid token", UNAUTHORIZED⟩)
        else
          let db₁ := updateTokens db
            (fun t => t.id == tid ||
              (t.type == TokenType.REFRESH && t.userId == userId && strContains t.token tid))
            (fun t => { t with invalidated := true })
          let db₂ := addActivityLog db₁ ⟨"User", userId, "LOGOUT", userId⟩
          (db₂, .ok ⟨true, "Logged out successfully"⟩)
    | none => (db, .error ⟨"Token ID required for logout", BAD_REQUEST⟩)

structure MessageResult where
  success : Bool
  message : String
deriving DecidableEq, Repr

/-- `forgotPassword(email)`: never reveals account existence; both branches
return the same success body. -/
def forgotPassword (cfg : JwtConfig) (now : Time) (db : DB) (email : String) :
    DB × Except AppError MessageResult :=
  match findUserByEmail db email with
  | none =>
    (db, .ok ⟨true, "If your email is registered, you will receive a password reset link"⟩)
  | some user =>
    if user.isActive = false then
      (db, .ok ⟨true, "If your email is registered, you will receive a password reset link"⟩)
    else
      let (resetToken, expiresAt) :=
        generateToken cfg now ⟨user.id, user.email, user.role, none, none⟩ .PASSWORD_RESET
      let db₁ := addToken db
        ⟨genId db.nextId, encodeJwt resetToken, .PASSWORD_RESET, user.id, expiresAt,
         false, none, none, none⟩
      let db₂ := addActivityLog db₁ ⟨"User", user.id, "PASSWORD_RESET_REQUEST", user.id⟩
      (db₂, .ok ⟨true, "If your email is registered, you will receive a password reset link"⟩)

/-- `resetPassword(token, newPassword, confirmPassword)`. -/
def resetPassword (now : Time) (db : DB)
    (token newPassword confirmPassword : String) :
    DB × Except AppError MessageResult :=
  match findTokenByStr db token with
  | none => (db, .error ⟨"Invalid or expired password reset token", UNAUTHORIZED⟩)
  | some tokenRecord =>
    if tokenRecord.type ≠ TokenType.PASSWORD_RESET ∨ tokenRecord.invalidated then
      (db, .error ⟨"Invalid or expired password reset token", UNAUTHORIZED⟩)
    else if tokenRecord.expiresAt < now then
      let db₁ := updateTokens db (fun t => t.id == tokenRecord.id)
        (fun t => { t with invalidated := true })
      (db₁, .error ⟨"Password reset token has expired", UNAUTHORIZED⟩)
    else if newPassword ≠ confirmPassword then
      (db, .error ⟨"Passwords do not match", BAD_REQUEST⟩)
    else
      match findUserById db tokenRecord.userId with
      | none => (db, .error ⟨"User not found or inactive", NOT_FOUND⟩)
      | some user =>
        if user.isActive = false then
          (db, .error ⟨"User not found or inactive", NOT_FOUND⟩)
        else
          let db₁ := updateUser db user.id
            (fun u => { u with password := bcryptHash newPassword })
          let db₂ := updateTokens db₁ (fun t => t.id == tokenRecord.id)
            (fun t => { t with invalidated := true })
          let db₃ := updateTokens db₂
            (fun t => t.userId == user.id && t.invalidated == false &&
              (t.type == TokenType.ACCESS || t.type == TokenType.REFRESH))
            (fun t => { t with invalidated := true })
          let db₄ := addActivityLog db₃ ⟨"User", user.id, "PASSWORD_RESET", user.id⟩
          (db₄, .ok ⟨true, "Password has been reset successfully"⟩)

/-! ## Authentication middleware (`src/common/middleware/auth.middleware.ts`)

`extractToken` is pure (header first, cookie fallback); the middleware
receives its result here.  The flow: verify as ACCESS with the per-type
secret, re-check the payload type tag, check revocation of a carried
`tokenId` against the store, check user existence/activity, then the lazy
lockout check.  Each failure logs a security event and surfaces an
`AppError`. -/

structure AuthedUser where
  id : String
  email : String
  role : Role
  tokenId : Option String
deriving DecidableEq, Repr

def ONE_HOUR : Int := 60 * 60 * 1000

def authenticate (cfg : JwtConfig) (mcfg : MonitoringConfig) (storeOk : Bool)
    (now : Time) (db : DB) (extracted : Option SignedToken) :
    DB × Except AppError AuthedUser :=
  match extracted with
  | none =>
    (logSecurityEvent mcfg storeOk db none "AUTH_FAILED_NO_TOKEN" "warning",
     .error ⟨"Authentication required", UNAUTHORIZED⟩)
  | some token =>
    match verifyToken cfg now token TokenType.ACCESS with
    | .error e =>
      if e.message = "Token expired" then
        (logSecurityEvent mcfg storeOk db none "AUTH_FAILED_EXPIRED_TOKEN" "warning",
         .error ⟨"Session expired, please login again", UNAUTHORIZED⟩)
      else if e.message = "Invalid token" then
        (logSecurityEvent mcfg storeOk db none "AUTH_FAILED_INVALID_TOKEN" "warning",
         .error ⟨"Invalid authentication token", UNAUTHORIZED⟩)
      else
        (logSecurityEvent mcfg storeOk db none "AUTH_FAILED_UNKNOWN" "error",
         .error ⟨"Authentication failed", UNAUTHORIZED⟩)
    | .ok decoded =>
      if decoded.type ≠ some TokenType.ACCESS then
        (logSecurityEvent mcfg storeOk db (some decoded.userId)
           "AUTH_FAILED_INVALID_TOKEN_TYPE" "warning",
         .error ⟨"Invalid token type", UNAUTHORIZED⟩)
      else
        let revoked :=
          match decoded.tokenId with
          | some tid =>
            match findTokenById db tid with
            | none => true
            | some tokenRecord => tokenRecord.invalidated
          | none => false
        if revoked then
          (logSecurityEvent mcfg storeOk db (some decoded.userId)
             "AUTH_FAILED_INVALIDATED_TOKEN" "warning",
           .error ⟨"Token has been revoked", UNAUTHORIZED⟩)
        else
          let db₁ :=
            match decoded.tokenId with
            | some tid =>
              updateTokens db (fun t => t.id == tid) (fun t => { t with lastUsed := some now })
            | none => db
          match findUserById db₁ decoded.userId with
          | none =>
            (logSecurityEvent mcfg storeOk db₁ (some decoded.userId)
               "AUTH_FAILED_USER_NOT_FOUND" "warning",
             .error ⟨"User not found", UNAUTHORIZED⟩)
          | some user =>
            if user.isActive = false then
              (logSecurityEvent mcfg storeOk db₁ (some user.id)
                 "AUTH_FAILED_INACTIVE_USER" "warning",
               .error ⟨"Account is inactive", UNAUTHORIZED⟩)
            else
              let lockCheck := isAccountLocked now db₁ user.id
              if lockCheck.2 then
                (logSecurityEvent mcfg storeOk lockCheck.1 (some user.id)
                   "AUTH_FAILED_LOCKED_ACCOUNT" "warning",
                 .error ⟨"Account is locked. Please try again later.", TOO_MANY_REQUESTS⟩)
              else
                let db₂ := lockCheck.1
                let db₃ :=
                  match user.lastLogin with
                  | none => updateUser db₂ user.id (fun u => { u with lastLogin := some now })
                  | some t =>
                    if ONE_HOUR < now - t then
                      updateUser db₂ user.id (fun u => { u with lastLogin := some now })
                    else db₂
                let db₄ := logAuditEvent mcfg storeOk db₃ user.id "AUTH_SUCCESS" "Authentication"
                (db₄, .ok ⟨user.id, user.email, user.role, decoded.tokenId⟩)

/-! ## Real-time Notification Gateway (`socket.ts`, `src/unnamed/part_000`) -/

/-- The in-process `connectedUsers` map: user id → live socket ids. -/
abbrev ConnMap := List (String × List String)

def connectionsOf (cu : ConnMap) (uid : String) : List String :=
  ((cu.find? (fun p => p.1 == uid)).map Prod.snd).getD []

structure Emit where
  socketId : String
  event : String
  notificationId : String
deriving DecidableEq, Repr

/-- `sendNotification(notification)`: persists first, then pushes
`new:notification` to each live connection of the recipient (none when the
recipient has no live connections). -/
def sendNotification (now : Time) (db : DB) (cu : ConnMap) (recipientId : String) :
    DB × List Emit × Notification :=
  let savedNotification : Notification := ⟨genId db.nextId, recipientId, false, false, now⟩
  let db₁ := { db with notifications := db.notifications ++ [savedNotification]
                       nextId := db.nextId + 1 }
  let recipientSockets := connectionsOf cu recipientId
  let emits :=
    if 0 < recipientSockets.length then
      recipientSockets.map (fun sid => ⟨sid, "new:notification", savedNotification.id⟩)
    else []
  (db₁, emits, savedNotification)

/-- The `get:notifications` handler: the 50 most recent unseen notifications
of the connected user, newest first. -/
def getNotificationsHandler (db : DB) (uid : String) : List Notification :=
  (sortByDesc (fun n => n.createdAt)
    (db.notifications.filter (fun n => n.recipientId == uid && n.seen == false))).take 50

/-! ## Helper lemmas -/

theorem find?_map_comm {α : Type} {p : α → Bool} {g : α → α}
    (hp : ∀ a, p (g a) = p a) :
    ∀ l : List α, (l.map g).find? p = (l.find? p).map g := by
  intro l
  induction l with
  | nil => rfl
  | cons a t ih =>
    by_cases h : p a = true
    · rw [List.map_cons, List.find?_cons_of_pos _ (by rw [hp]; exact h),
        List.find?_cons_of_pos _ h]
      rfl
    · rw [List.map_cons, List.find?_cons_of_neg _ (by rw [hp]; simpa using h),
        List.find?_cons_of_neg _ (by simpa using h), ih]

theorem findTokenById_updateTokens (db : DB) (p : TokenRec → Bool)
    (f : TokenRec → TokenRec) (hf : ∀ t, (f t).id = t.id) (i : String) :
    findTokenById (updateTokens db p f) i =
      (findTokenById db i).map (fun t => if p t then f t else t) := by
  unfold findTokenById updateTokens
  exact find?_map_comm (fun t => by by_cases h : p t <;> simp [h, hf]) db.tokens

theorem findUserById_updateUser (db : DB) (uid : String) (f : User → User)
    (hf : ∀ u, (f u).id = u.id) (i : String) :
    findUserById (updateUser db uid f) i =
      (findUserById db i).map (fun u => if u.id == uid then f u else u) := by
  unfold findUserById updateUser
  exact find?_map_comm (fun u => by by_cases h : u.id == uid <;> simp [h, hf]) db.users

/-! ## C5 — forgot-password responses are indistinguishable -/

theorem forgotPassword_resp (cfg : JwtConfig) (now : Time) (db : DB) (email : String) :
    (forgotPassword cfg now db email).2 =
      .ok ⟨true, "If your email is registered, you will receive a password reset link"⟩ := by
  unfold forgotPassword
  cases findUserByEmail db email with
  | none => rfl
  | some user => by_cases h : user.isActive = false <;> simp [h]

/-- C5: for every pair of email addresses (in particular one belonging to a
registered active user and one not), `forgotPassword` returns identical
success response bodies, revealing nothing about account existence. -/
theorem forgotPassword_identical_responses (cfg₁ cfg₂ : JwtConfig)
    (now₁ now₂ : Time) (db₁ db₂ : DB) (email₁ email₂ : String) :
    (forgotPassword cfg₁ now₁ db₁ email₁).2 = (forgotPassword cfg₂ now₂ db₂ email₂).2 := by
  rw [forgotPassword_resp, forgotPassword_resp]

/-! ## C8 — lazy lockout clearing -/

/-- C8: for a locked user whose `lockoutExpiry` lies strictly in the past,
the first `isAccountLocked` check clears the lock flag and the lockout
expiry and returns `false`, with no background job involved; for a locked
user whose expiry has not passed it returns `true` and changes nothing. -/
theorem isAccountLocked_lazy_clear (now : Time) (db : DB) (uid : String)
    (u : User) (t : Time) (h₁ : findUserById db uid = some u)
    (h₂ : u.isLocked = true) (h₃ : u.lockoutExpiry = some t) :
    (t < now →
      (isAccountLocked now db uid).2 = false ∧
      ∀ u', findUserById (isAccountLocked now db uid).1 uid = some u' →
        u'.isLocked = false ∧ u'.lockoutExpiry = none)
    ∧ (now ≤ t → isAccountLocked now db uid = (db, true)) := by
  constructor
  · intro hlt
    have hfst : (isAccountLocked now db uid).1 =
        updateUser db uid (fun x => { x with isLocked := false, lockoutExpiry := none }) := by
      unfold isAccountLocked
      rw [h₁]
      simp [h₂, h₃, hlt]
    have hsnd : (isAccountLocked now db uid).2 = false := by
      unfold isAccountLocked
      rw [h₁]
      simp [h₂, h₃, hlt]
    refine ⟨hsnd, ?_⟩
    intro u' hu'
    rw [hfst,
      findUserById_updateUser db uid
        (fun x => { x with isLocked := false, lockoutExpiry := none })
        (fun x => rfl) uid, h₁] at hu'
    have hid : (u.id == uid) = true := by
      have := List.find?_some h₁
      simpa using this
    simp [hid] at hu'
    have hEq : u.id = uid := by simpa using hid
    constructor
    · rw [← hu']
      simp [hEq]
    · rw [← hu']
      simp [hEq]
  · intro hge
    unfold isAccountLocked
    rw [h₁]
    simp [h₂, h₃]
    exact hge

def dbEmpty : DB := ⟨[], [], [], [], [], [], [], [], 0⟩

def lockedUser : User :=
  ⟨"u1", "a@b.com", bcryptHash "Aa1!aaaa", "Alice", .STAFF, true, true, true, some 500, none⟩

def dbLocked : DB := { dbEmpty with users := [lockedUser] }

theorem isAccountLocked_lazy_clear_witness :
    (isAccountLocked 1000 dbLocked "u1").2 = false ∧
    ∀ u', findUserById (isAccountLocked 1000 dbLocked "u1").1 "u1" = some u' →
      u'.isLocked = false ∧ u'.lockoutExpiry = none :=
  (isAccountLocked_lazy_clear 1000 dbLocked "u1" lockedUser 500 (by decide)
    (by decide) (by decide)).1 (by decide)

/-! ## C10 — logging can never fail its caller -/

theorem authenticate_snd_indep (cfg : JwtConfig) (mcfg : MonitoringConfig)
    (so₁ so₂ : Bool) (now : Time) (db : DB) (tok : Option SignedToken) :
    (authenticate cfg mcfg so₁ now db tok).2 = (authenticate cfg mcfg so₂ now db tok).2 := by
  unfold authenticate
  cases tok with
  | none => rfl
  | some t =>
    cases hv : verifyToken cfg now t TokenType.ACCESS with
    | error e =>
      simp only [hv]
      by_cases h₁ : e.message = "Token expired"
      · simp [h₁]
      · by_cases h₂ : e.message = "Invalid token" <;> simp [h₁, h₂]
    | ok decoded =>
      simp only [hv]
      split
      · rfl
      · split
        · rfl
        · split
          · rfl
          · split
            · rfl
            · split
              · rfl
              · rfl

/-- C10: `logSecurityEvent` and `logAuditEvent` never surface a failure to
the caller: with the corresponding monitoring flag off they return the
store unchanged, and when the underlying store write rejects the error is
caught and the store is returned unchanged; consequently the result of the
authentication flow is identical whether or not its log entries were
recorded. -/
theorem logging_never_fails_caller (mcfg : MonitoringConfig) (storeOk : Bool)
    (db : DB) (uid : Option String) (event severity : String)
    (uida action resource : String) :
    (mcfg.enableSecurityLogs = false →
      logSecurityEvent mcfg storeOk db uid event severity = db)
    ∧ (storeOk = false → logSecurityEvent mcfg storeOk db uid event severity = db)
    ∧ (mcfg.enableAuditLogs = false →
      logAuditEvent mcfg storeOk db uida action resource = db)
    ∧ (storeOk = false → logAuditEvent mcfg storeOk db uida action resource = db)
    ∧ (∀ cfg now tok so,
      (authenticate cfg mcfg so now db tok).2 =
        (authenticate cfg mcfg storeOk now db tok).2) := by
  refine ⟨?_, ?_, ?_, ?_, ?_⟩
  · intro h
    unfold logSecurityEvent
    simp [h]
  · intro h
    unfold logSecurityEvent securityLogCreate
    simp [h]
  · intro h
    unfold logAuditEvent
    simp [h]
  · intro h
    unfold logAuditEvent auditLogCreate
    simp [h]
  · intro cfg now tok so
    exact authenticate_snd_indep cfg mcfg so storeOk now db tok

theorem logging_never_fails_caller_witness :
    logSecurityEvent ⟨true, true⟩ false dbEmpty (some "u1") "AUTH_FAILED_NO_TOKEN" "warning"
      = dbEmpty ∧
    logAuditEvent ⟨true, true⟩ false dbEmpty "u1" "AUTH_SUCCESS" "Authentication" = dbEmpty :=
  ⟨(logging_never_fails_caller ⟨true, true⟩ false dbEmpty (some "u1")
      "AUTH_FAILED_NO_TOKEN" "warning" "u1" "AUTH_SUCCESS" "Authentication").2.1 rfl,
   (logging_never_fails_caller ⟨true, true⟩ false dbEmpty (some "u1")
      "AUTH_FAILED_NO_TOKEN" "warning" "u1" "AUTH_SUCCESS" "Authentication").2.2.2.1 rfl⟩

/-! ## C6 — a non-ACCESS token never authenticates -/

theorem verifyToken_error_unauthorized {cfg : JwtConfig} {now : Time}
    {tok : SignedToken} {tt : TokenType} {e : AppError}
    (h : verifyToken cfg now tok tt = .error e) : e.statusCode = UNAUTHORIZED := by
  unfold verifyToken at h
  split at h
  · cases h
    rfl
  · split at h
    · cases h
      rfl
    · cases h

theorem verifyToken_ok_payload {cfg : JwtConfig} {now : Time}
    {tok : SignedToken} {tt : TokenType} {p : JwtPayload}
    (h : verifyToken cfg now tok tt = .ok p) : p = tok.payload := by
  unfold verifyToken at h
  split at h
  · cases h
  · split at h
    · cases h
    · cases h
      rfl

/-- C6: a token whose embedded type tag is anything other than ACCESS (for
instance EMAIL_VERIFICATION) is rejected by the authentication middleware
with an Unauthorized-class error, never accepted: either the per-type
secret check fails in `verifyToken`, or the middleware's explicit
`payload.type == ACCESS` comparison fails. -/
theorem nonAccess_token_rejected (cfg : JwtConfig) (mcfg : MonitoringConfig)
    (storeOk : Bool) (now : Time) (db : DB) (tok : SignedToken) (tt : TokenType)
    (h₁ : tok.payload.type = some tt) (h₂ : tt ≠ TokenType.ACCESS) :
    ∃ e, (authenticate cfg mcfg storeOk now db (some tok)).2 = .error e ∧
      e.statusCode = UNAUTHORIZED := by
  unfold authenticate
  cases hv : verifyToken cfg now tok TokenType.ACCESS with
  | error e =>
    by_cases hm₁ : e.message = "Token expired"
    · exact ⟨⟨"Session expired, please login again", UNAUTHORIZED⟩, by simp [hv, hm₁], rfl⟩
    · by_cases hm₂ : e.message = "Invalid token"
      · exact ⟨⟨"Invalid authentication token", UNAUTHORIZED⟩, by simp [hv, hm₁, hm₂], rfl⟩
      · exact ⟨⟨"Authentication failed", UNAUTHORIZED⟩, by simp [hv, hm₁, hm₂], rfl⟩
  | ok decoded =>
    have hp := verifyToken_ok_payload hv
    have hty : decoded.type ≠ some TokenType.ACCESS := by
      rw [hp, h₁]
      intro hc
      exact h₂ (Option.some.inj hc)
    exact ⟨⟨"Invalid token type", UNAUTHORIZED⟩, by simp [hv, hty], rfl⟩

def cfgW : JwtConfig :=
  ⟨"acc-secret", "ref-secret", "email-secret", "pw-secret",
   900000, 604800000, 900000, 900000⟩

def emailTokW : SignedToken :=
  (generateToken cfgW 1000 ⟨"u1", "a@b.com", .STAFF, none, none⟩ .EMAIL_VERIFICATION).1

theorem nonAccess_token_rejected_witness :
    ∃ e, (authenticate cfgW ⟨true, true⟩ true 1000 dbEmpty (some emailTokW)).2 = .error e ∧
      e.statusCode = UNAUTHORIZED :=
  nonAccess_token_rejected cfgW ⟨true, true⟩ true 1000 dbEmpty emailTokW
    TokenType.EMAIL_VERIFICATION (by rfl) (by decide)

/-! ## Sorting lemmas for `sortByDesc` -/

theorem sortByDesc_sorted {α : Type} (key : α → Time) (l : List α) :
    (sortByDesc key l).Sorted (fun a b => key b ≤ key a) := by
  haveI : IsTotal α (fun a b => key b ≤ key a) := ⟨fun a b => le_total (key b) (key a)⟩
  haveI : IsTrans α (fun a b => key b ≤ key a) := ⟨fun a b c h₁ h₂ => le_trans h₂ h₁⟩
  exact List.sorted_insertionSort _ l

theorem mem_sortByDesc {α : Type} {key : α → Time} {l : List α} {x : α} :
    x ∈ sortByDesc key l ↔ x ∈ l :=
  List.mem_insertionSort _

theorem sortByDesc_head_max {α : Type} (key : α → Time) (l : List α) (x : α)
    (hx : x ∈ l) (hmax : ∀ y ∈ l, y ≠ x → key y < key x) :
    (sortByDesc key l).head? = some x := by
  have hxmem : x ∈ sortByDesc key l := mem_sortByDesc.mpr hx
  have hsorted := sortByDesc_sorted key l
  cases hsort : sortByDesc key l with
  | nil =>
    rw [hsort] at hxmem
    cases hxmem
  | cons h t =>
    rw [hsort] at hxmem hsorted
    rcases List.mem_cons.mp hxmem with rfl | hxt
    · rfl
    · have hrel : key x ≤ key h := List.rel_of_sorted_cons hsorted x hxt
      have hh : h ∈ l := mem_sortByDesc.mp (by rw [hsort]; exact List.mem_cons_self h t)
      by_cases he : h = x
      · rw [he]
        rfl
      · exact absurd (hmax h hh he) (not_lt.mpr hrel)

/-! ## C9 — store-and-forward notification delivery -/

/-- C9: `sendNotification` persists the notification even when the recipient
has zero live connections, in which case no push is emitted; the
`get:notifications` handler afterwards returns it (as the newest entry of
the unseen list); and in general that handler returns at most 50
notifications, ordered newest first. -/
theorem sendNotification_store_and_forward (now : Time) (db : DB) (cu : ConnMap)
    (recipientId : String) (hconn : connectionsOf cu recipientId = [])
    (hfresh : ∀ m ∈ db.notifications,
      m.recipientId = recipientId → m.seen = false → m.createdAt < now) :
    (sendNotification now db cu recipientId).2.1 = []
    ∧ (sendNotification now db cu recipientId).2.2 ∈
        (sendNotification now db cu recipientId).1.notifications
    ∧ (getNotificationsHandler (sendNotification now db cu recipientId).1 recipientId).head? =
        some (sendNotification now db cu recipientId).2.2
    ∧ ∀ (db' : DB) (uid : String),
        (getNotificationsHandler db' uid).length ≤ 50
        ∧ (getNotificationsHandler db' uid).Sorted (fun a b => b.createdAt ≤ a.createdAt) := by
  refine ⟨?_, ?_, ?_, ?_⟩
  · simp [sendNotification, hconn]
  · simp [sendNotification]
  · have hfilter :
        ((db.notifications ++ [(⟨genId db.nextId, recipientId, false, false, now⟩ : Notification)]).filter
          (fun n => n.recipientId == recipientId && n.seen == false)) =
        (db.notifications.filter (fun n => n.recipientId == recipientId && n.seen == false)) ++
          [(⟨genId db.nextId, recipientId, false, false, now⟩ : Notification)] := by
      rw [List.filter_append]
      simp [List.filter]
    have hhead := sortByDesc_head_max (fun n => n.createdAt)
      ((db.notifications.filter (fun n => n.recipientId == recipientId && n.seen == false)) ++
        [(⟨genId db.nextId, recipientId, false, false, now⟩ : Notification)])
      (⟨genId db.nextId, recipientId, false, false, now⟩ : Notification)
      (by simp)
      (by
        intro y hy hne
        rcases List.mem_append.mp hy with hyl | hyr
        · have hyp := List.of_mem_filter hyl
          have hym := List.mem_of_mem_filter hyl
          have h₁ : y.recipientId = recipientId := by
            have := (Bool.and_eq_true _ _).mp hyp
            simpa using this.1
          have h₂ : y.seen = false := by
            have := (Bool.and_eq_true _ _).mp hyp
            simpa using this.2
          exact hfresh y hym h₁ h₂
        · exact absurd (List.mem_singleton.mp hyr) hne)
    show (getNotificationsHandler _ recipientId).head? = some _
    unfold getNotificationsHandler sendNotification
    simp only []
    rw [hfilter] at *
    cases hs : sortByDesc (fun n => n.createdAt)
        ((db.notifications.filter (fun n => n.recipientId == recipientId && n.seen == false)) ++
          [(⟨genId db.nextId, recipientId, false, false, now⟩ : Notification)]) with
    | nil =>
      rw [hs] at hhead
      cases hhead
    | cons a t =>
      rw [hs] at hhead
      simp only [List.head?] at hhead
      simp [List.take, hhead]
  · intro db' uid
    constructor
    · exact List.length_take_le 50 _
    · exact List.Pairwise.sublist (List.take_sublist 50 _)
        (sortByDesc_sorted (fun n : Notification => n.createdAt)
          (db'.notifications.filter (fun n => n.recipientId == uid && n.seen == false)))

def dbNotif : DB :=
  { dbEmpty with notifications := [⟨"n0", "u1", false, false, 10⟩], nextId := 5 }

theorem sendNotification_store_and_forward_witness :
    (sendNotification 1000 dbNotif [] "u1").2.1 = []
    ∧ (sendNotification 1000 dbNotif [] "u1").2.2 ∈
        (sendNotification 1000 dbNotif [] "u1").1.notifications
    ∧ (getNotificationsHandler (sendNotification 1000 dbNotif [] "u1").1 "u1").head? =
        some (sendNotification 1000 dbNotif [] "u1").2.2 :=
  have h := sendNotification_store_and_forward 1000 dbNotif [] "u1" (by rfl)
    (by decide)
  ⟨h.1, h.2.1, h.2.2.1⟩

/-! ## C7 — concurrent-session cap and oldest-first eviction -/

/-- C7: when a user's session count is at least the configured maximum,
`manageSessions` deletes all but the `max − 1` most recently active sessions
and inserts the new one, so the user ends with exactly `max` sessions and
every evicted session is no more recently active than every kept one. -/
theorem manageSessions_evicts_oldest (scfg : SecurityConfig) (now : Time) (db : DB)
    (uid newSessionId : String)
    (hmax : 1 ≤ scfg.maxConcurrentSessions)
    (hlen : scfg.maxConcurrentSessions ≤
      (db.sessions.filter (fun s => s.userId == uid)).length)
    (hnodup : (db.sessions.map (fun s => s.id)).Nodup) :
    ((manageSessions scfg now db uid newSessionId).sessions.filter
        (fun s => s.userId == uid)).length = scfg.maxConcurrentSessions
    ∧ (⟨newSessionId, uid, now⟩ : Session) ∈
        (manageSessions scfg now db uid newSessionId).sessions
    ∧ (∀ s ∈ db.sessions, s.userId = uid →
        s ∉ (manageSessions scfg now db uid newSessionId).sessions →
        ∀ s' ∈ (manageSessions scfg now db uid newSessionId).sessions, s'.userId = uid →
          s' ≠ (⟨newSessionId, uid, now⟩ : Session) → s.lastActive ≤ s'.lastActive) := by
  classical
  have hcond : scfg.maxConcurrentSessions ≤
      (sortByDesc (fun s => s.lastActive)
        (db.sessions.filter (fun s => s.userId == uid))).length := by
    unfold sortByDesc
    rw [(List.perm_insertionSort _ _).length_eq]
    exact hlen
  have hdb' : (manageSessions scfg now db uid newSessionId).sessions =
      db.sessions.filter (fun s =>
        !((((sortByDesc (fun s => s.lastActive)
            (db.sessions.filter (fun s => s.userId == uid))).drop
              (scfg.maxConcurrentSessions - 1)).map (fun s => s.id)).contains s.id)) ++
        [(⟨newSessionId, uid, now⟩ : Session)] := by
    simp only [manageSessions]
    rw [if_pos hcond]
  set u : Session → Bool := fun s : Session => s.userId == uid with hu
  set key : Session → Time := fun s : Session => s.lastActive with hkey
  set S : List Session := db.sessions.filter u with hS
  set srt : List Session := sortByDesc key S with hsrt
  set m := scfg.maxConcurrentSessions with hmdef
  set rem : List Session := srt.drop (m - 1) with hrem
  set remIds : List String := rem.map (fun s : Session => s.id) with hremIds
  set p : Session → Bool := fun s : Session => !(remIds.contains s.id) with hp
  set newSess : Session := ⟨newSessionId, uid, now⟩ with hns
  have hDbNodup : db.sessions.Nodup := List.Nodup.of_map _ hnodup
  have hSNodup : S.Nodup := hDbNodup.filter u
  have hperm : List.Perm srt S := List.perm_insertionSort _ S
  have hsrtNodup : srt.Nodup := hperm.nodup_iff.mpr hSNodup
  have hsorted : srt.Pairwise (fun a b => key b ≤ key a) := sortByDesc_sorted key S
  have hsplit : srt.take (m - 1) ++ rem = srt := List.take_append_drop (m - 1) srt
  have hinj : ∀ a ∈ db.sessions, ∀ b ∈ db.sessions, a.id = b.id → a = b :=
    fun a ha b hb hab => List.inj_on_of_nodup_map hnodup ha hb hab
  have hsrt_sub : ∀ a ∈ srt, a ∈ db.sessions := fun a ha =>
    List.mem_of_mem_filter (hperm.mem_iff.mp ha)
  have hmem_of_pfalse : ∀ s ∈ db.sessions, p s = false → s ∈ rem := by
    intro s hs hps
    have hcontains : s.id ∈ remIds := by
      rw [hp] at hps
      simpa using hps
    obtain ⟨r, hrmem, hrid⟩ := List.mem_map.mp hcontains
    have hr_db : r ∈ db.sessions := hsrt_sub r (List.drop_subset _ _ hrmem)
    have : r = s := hinj r hr_db s hs hrid
    exact this ▸ hrmem
  have htake_p : ∀ a ∈ srt.take (m - 1), p a = true := by
    intro a ha
    by_contra hpa
    have hpa' : p a = false := by
      cases hval : p a
      · rfl
      · exact absurd hval hpa
    have ha_db : a ∈ db.sessions := hsrt_sub a (List.take_subset _ _ ha)
    have harem : a ∈ rem := hmem_of_pfalse a ha_db hpa'
    exact (List.disjoint_take_drop hsrtNodup (le_refl (m - 1))) ha harem
  have hrem_p : ∀ a ∈ rem, p a = false := by
    intro a ha
    rw [hp]
    simp only [Bool.not_eq_false', beq_iff_eq]
    simp [hremIds]
    exact ⟨a, ha, rfl⟩
  have hfilter_srt : srt.filter p = srt.take (m - 1) := by
    conv_lhs => rw [← hsplit]
    rw [List.filter_append, List.filter_eq_self.mpr (fun a ha => by simp [htake_p a ha]),
      List.filter_eq_nil_iff.mpr (fun a ha => by simp [hrem_p a ha]), List.append_nil]
  have hlen_take : (srt.take (m - 1)).length = m - 1 := by
    rw [List.length_take]
    have h1 : m - 1 ≤ srt.length := by
      have := hperm.length_eq
      omega
    omega
  have hcount : (S.filter p).length = m - 1 := by
    rw [← (hperm.filter p).length_eq, hfilter_srt, hlen_take]
  refine ⟨?_, ?_, ?_⟩
  · rw [hdb', List.filter_append]
    have h1 : (db.sessions.filter p).filter u = db.sessions.filter (fun a => u a && p a) :=
      List.filter_filter ..
    have h2 : S.filter p = db.sessions.filter (fun a => p a && u a) := by
      rw [hS]
      exact List.filter_filter ..
    have h3 : db.sessions.filter (fun a => u a && p a) =
        db.sessions.filter (fun a => p a && u a) :=
      List.filter_congr (fun a _ => Bool.and_comm (u a) (p a))
    have h4 : List.filter u [newSess] = [newSess] := by
      simp [hu, hns]
    rw [h1, h3, ← h2, h4, List.length_append, hcount]
    simp
    omega
  · rw [hdb']
    exact List.mem_append_right _ (List.mem_singleton_self _)
  · intro s hs hsu hsnot s' hs' hs'u hs'ne
    have hps : p s = false := by
      cases hval : p s
      · rfl
      · exact absurd (by
          rw [hdb']
          exact List.mem_append_left _ (List.mem_filter.mpr ⟨hs, hval⟩)) hsnot
    have hsrem : s ∈ rem := hmem_of_pfalse s hs hps
    have hs'mem : s' ∈ db.sessions.filter p := by
      rw [hdb'] at hs'
      rcases List.mem_append.mp hs' with h | h
      · exact h
      · exact absurd (List.mem_singleton.mp h) hs'ne
    have hs'p : p s' = true := List.of_mem_filter hs'mem
    have hs'S : s' ∈ S := by
      rw [hS]
      exact List.mem_filter.mpr ⟨List.mem_of_mem_filter hs'mem, by simp [hu, hs'u]⟩
    have hs'srt : s' ∈ srt := hperm.mem_iff.mpr hs'S
    have hs'take : s' ∈ srt.take (m - 1) := by
      rcases List.mem_append.mp (by rw [hsplit]; exact hs'srt :
          s' ∈ srt.take (m - 1) ++ rem) with h | h
      · exact h
      · rw [hrem_p s' h] at hs'p
        cases hs'p
    rw [← hsplit] at hsorted
    exact (List.pairwise_append.mp hsorted).2.2 s' hs'take s hsrem

def sessionsW : List Session :=
  [⟨"s1", "u1", 1⟩, ⟨"s2", "u1", 2⟩, ⟨"s3", "u1", 3⟩, ⟨"s4", "u1", 4⟩, ⟨"s5", "u1", 5⟩]

def dbSessW : DB := { dbEmpty with sessions := sessionsW }

def scfgW : SecurityConfig := ⟨5, 900000, 1800000, 5⟩

theorem manageSessions_evicts_oldest_witness :
    ((manageSessions scfgW 100 dbSessW "u1" "s6").sessions.filter
        (fun s => s.userId == "u1")).length = scfgW.maxConcurrentSessions
    ∧ (⟨"s6", "u1", 100⟩ : Session) ∈ (manageSessions scfgW 100 dbSessW "u1" "s6").sessions :=
  have h := manageSessions_evicts_oldest scfgW 100 dbSessW "u1" "s6"
    (by decide) (by decide) (by decide)
  ⟨h.1, h.2.1⟩

/-! ## C3 — password reset revokes all ACCESS/REFRESH tokens -/

/-- The per-record effect of `resetPassword`'s single-token invalidation
(`prisma.token.update({where: {id}})`). -/
def resetG2 (tr t : TokenRec) : TokenRec :=
  if t.id == tr.id then { t with invalidated := true } else t

/-- The per-record effect of `resetPassword`'s bulk `updateMany` over all
non-invalidated ACCESS/REFRESH tokens of the user. -/
def resetG3 (u : User) (t : TokenRec) : TokenRec :=
  if t.userId == u.id && t.invalidated == false &&
      (t.type == TokenType.ACCESS || t.type == TokenType.REFRESH)
    then { t with invalidated := true } else t

theorem resetG2_id (tr t : TokenRec) : (resetG2 tr t).id = t.id := by
  unfold resetG2
  split <;> rfl

theorem resetG3_id (u : User) (t : TokenRec) : (resetG3 u t).id = t.id := by
  unfold resetG3
  split <;> rfl

theorem resetG2_userId (tr t : TokenRec) : (resetG2 tr t).userId = t.userId := by
  unfold resetG2
  split <;> rfl

theorem resetG3_userId (u : User) (t : TokenRec) : (resetG3 u t).userId = t.userId := by
  unfold resetG3
  split <;> rfl

theorem resetG2_type (tr t : TokenRec) : (resetG2 tr t).type = t.type := by
  unfold resetG2
  split <;> rfl

theorem resetG3_type (u : User) (t : TokenRec) : (resetG3 u t).type = t.type := by
  unfold resetG3
  split <;> rfl

theorem resetG2_eq_of_ne {tr t : TokenRec} (h : (t.id == tr.id) = false) :
    resetG2 tr t = t := by
  unfold resetG2
  rw [h]
  simp

theorem resetG2_invalidated_self (tr : TokenRec) : (resetG2 tr tr).invalidated = true := by
  unfold resetG2
  simp

theorem resetG3_keeps_true {u : User} {t : TokenRec} (h : t.invalidated = true) :
    (resetG3 u t).invalidated = true := by
  unfold resetG3
  split
  · rfl
  · exact h

theorem resetG3_invalidated_of {u : User} {t : TokenRec}
    (huid : t.userId = u.id) (hty : t.type = TokenType.ACCESS ∨ t.type = TokenType.REFRESH) :
    (resetG3 u t).invalidated = true := by
  unfold resetG3
  by_cases hi : t.invalidated = true
  · rw [if_neg (by simp [hi])]
    exact hi
  · have hi' : t.invalidated = false := by
      cases hval : t.invalidated
      · rfl
      · exact absurd hval hi
    rw [if_pos (by rcases hty with h | h <;> simp [huid, hi', h])]

/-- C3: a successful password reset with a valid PASSWORD_RESET token
invalidates the reset token itself and every ACCESS and REFRESH token of
that user; a subsequent authenticated request bearing a pre-reset access
token whose payload carries a `tokenId` naming one of those records is
rejected as revoked. -/
theorem resetPassword_revokes_all_tokens (now : Time) (db : DB)
    (tokStr npw cpw : String) (tr : TokenRec) (u : User)
    (hnodup : (db.tokens.map (fun t => t.id)).Nodup)
    (htok : findTokenByStr db tokStr = some tr)
    (htyp : tr.type = TokenType.PASSWORD_RESET)
    (hinv : tr.invalidated = false)
    (hexp : ¬ (tr.expiresAt < now))
    (hpw : npw = cpw)
    (huser : findUserById db tr.userId = some u)
    (hact : u.isActive = true) :
    (resetPassword now db tokStr npw cpw).2 =
        .ok ⟨true, "Password has been reset successfully"⟩
    ∧ (∀ t ∈ (resetPassword now db tokStr npw cpw).1.tokens,
        t.userId = tr.userId → (t.type = TokenType.ACCESS ∨ t.type = TokenType.REFRESH) →
        t.invalidated = true)
    ∧ (∀ t ∈ (resetPassword now db tokStr npw cpw).1.tokens,
        t.id = tr.id → t.invalidated = true)
    ∧ (∀ (cfg : JwtConfig) (mcfg : MonitoringConfig) (so : Bool) (now₂ : Time)
        (tok : SignedToken) (tid : String) (rec : TokenRec),
        tok.secret = cfg.accessSecret → ¬ (tok.exp ≤ now₂) →
        tok.payload.type = some TokenType.ACCESS →
        tok.payload.tokenId = some tid →
        findTokenById db tid = some rec →
        rec.userId = tr.userId → rec.type = TokenType.ACCESS →
        (authenticate cfg mcfg so now₂ (resetPassword now db tokStr npw cpw).1
            (some tok)).2 =
          .error ⟨"Token has been revoked", UNAUTHORIZED⟩) := by
  have hu_id : u.id = tr.userId := by
    have := List.find?_some huser
    simpa using this
  have htr_mem : tr ∈ db.tokens := List.mem_of_find?_eq_some htok
  have hinj : ∀ a ∈ db.tokens, ∀ b ∈ db.tokens, a.id = b.id → a = b :=
    fun a ha b hb hab => List.inj_on_of_nodup_map hnodup ha hb hab
  have hrun : resetPassword now db tokStr npw cpw =
      (addActivityLog
        (updateTokens
          (updateTokens
            (updateUser db u.id (fun x => { x with password := bcryptHash npw }))
            (fun t => t.id == tr.id) (fun t => { t with invalidated := true }))
          (fun t => t.userId == u.id && t.invalidated == false &&
            (t.type == TokenType.ACCESS || t.type == TokenType.REFRESH))
          (fun t => { t with invalidated := true }))
        ⟨"User", u.id, "PASSWORD_RESET", u.id⟩,
       .ok ⟨true, "Password has been reset successfully"⟩) := by
    unfold resetPassword
    rw [htok]
    simp only []
    rw [if_neg (by simp [htyp, hinv]), if_neg hexp, if_neg (by simp [hpw]), huser]
    simp [hact]
  have hdbtok : (resetPassword now db tokStr npw cpw).1.tokens =
      (db.tokens.map (resetG2 tr)).map (resetG3 u) := by
    rw [hrun]
    rfl
  have hne_of : ∀ t ∈ db.tokens,
      (t.type = TokenType.ACCESS ∨ t.type = TokenType.REFRESH) →
      (t.id == tr.id) = false := by
    intro t htmem htty
    cases hval : (t.id == tr.id)
    · rfl
    · have : t = tr := hinj t htmem tr htr_mem (by simpa using hval)
      rcases htty with h | h <;> rw [this, htyp] at h <;> cases h
  refine ⟨?_, ?_, ?_, ?_⟩
  · rw [hrun]
  · intro t ht htuid htty
    rw [hdbtok, List.map_map] at ht
    obtain ⟨t₀, ht₀mem, ht₀eq⟩ := List.mem_map.mp ht
    simp only [Function.comp] at ht₀eq
    have huid₀ : t₀.userId = tr.userId := by
      rw [← htuid, ← ht₀eq, resetG3_userId, resetG2_userId]
    have hty₀ : t₀.type = TokenType.ACCESS ∨ t₀.type = TokenType.REFRESH := by
      rcases htty with h | h
      · exact Or.inl (by rw [← h, ← ht₀eq, resetG3_type, resetG2_type])
      · exact Or.inr (by rw [← h, ← ht₀eq, resetG3_type, resetG2_type])
    have hne := hne_of t₀ ht₀mem hty₀
    rw [← ht₀eq, resetG2_eq_of_ne hne]
    exact resetG3_invalidated_of (by rw [huid₀, ← hu_id]) hty₀
  · intro t ht htid
    rw [hdbtok, List.map_map] at ht
    obtain ⟨t₀, ht₀mem, ht₀eq⟩ := List.mem_map.mp ht
    simp only [Function.comp] at ht₀eq
    have hid₀ : t₀.id = tr.id := by
      rw [← htid, ← ht₀eq, resetG3_id, resetG2_id]
    have ht₀tr : t₀ = tr := hinj t₀ ht₀mem tr htr_mem hid₀
    rw [← ht₀eq, ht₀tr]
    exact resetG3_keeps_true (resetG2_invalidated_self tr)
  · intro cfg mcfg so now₂ tok tid rec hsec hexp₂ hty htid hrec hrecuid hrecty
    have hv : verifyToken cfg now₂ tok TokenType.ACCESS = .ok tok.payload := by
      unfold verifyToken
      rw [if_neg (by simp [tokenSecret, hsec]), if_neg hexp₂]
    have hfindrec : findTokenById (resetPassword now db tokStr npw cpw).1 tid =
        some (resetG3 u (resetG2 tr rec)) := by
      unfold findTokenById
      rw [hdbtok]
      rw [find?_map_comm (fun a => by rw [resetG3_id]),
        find?_map_comm (fun a => by rw [resetG2_id])]
      have hrec' : db.tokens.find? (fun t => t.id == tid) = some rec := hrec
      rw [hrec']
      rfl
    have hrecmem : rec ∈ db.tokens := List.mem_of_find?_eq_some hrec
    have hrecinv : (resetG3 u (resetG2 tr rec)).invalidated = true := by
      rw [resetG2_eq_of_ne (hne_of rec hrecmem (Or.inl hrecty))]
      exact resetG3_invalidated_of (by rw [hrecuid, ← hu_id]) (Or.inl hrecty)
    unfold authenticate
    simp only [hv]
    simp [hty, htid, hfindrec, hrecinv]

def resetTr : TokenRec :=
  ⟨"pr1", "reset-tok", .PASSWORD_RESET, "u1", 5000, false, none, none, none⟩

def accessRec : TokenRec :=
  ⟨"ac1", "access-jwt", .ACCESS, "u1", 9000, false, none, none, none⟩

def activeUser : User :=
  ⟨"u1", "a@b.com", bcryptHash "old", "Alice", .STAFF, true, true, false, none, none⟩

def dbReset : DB := { dbEmpty with users := [activeUser], tokens := [resetTr, accessRec] }

def preResetTok : SignedToken :=
  ⟨⟨"u1", "a@b.com", .STAFF, some "ac1", some .ACCESS⟩, "acc-secret", 0, 99999⟩

theorem resetPassword_revokes_all_tokens_witness :
    (resetPassword 1000 dbReset "reset-tok" "NewPw1!x" "NewPw1!x").2 =
        .ok ⟨true, "Password has been reset successfully"⟩
    ∧ (authenticate cfgW ⟨true, true⟩ true 10
        (resetPassword 1000 dbReset "reset-tok" "NewPw1!x" "NewPw1!x").1
        (some preResetTok)).2 =
      .error ⟨"Token has been revoked", UNAUTHORIZED⟩ :=
  have h := resetPassword_revokes_all_tokens 1000 dbReset "reset-tok" "NewPw1!x" "NewPw1!x"
    resetTr activeUser (by decide) (by decide) (by decide) (by decide) (by decide)
    (by decide) (by decide) (by decide)
  ⟨h.1, h.2.2.2 cfgW ⟨true, true⟩ true 10 preResetTok "ac1" accessRec (by decide) (by decide)
    (by decide) (by decide) (by decide) (by decide) (by decide)⟩

/-! ## C2 — refresh-token rotation is sequential, not atomic -/

/-- A refresh-token record is *valid* when it exists, is of type REFRESH, is
not invalidated, and is not past its expiry (the acceptance conditions of
the refresh flow). -/
def validRefreshRecord (db : DB) (now : Time) (tid : String) : Bool :=
  db.tokens.any (fun t => t.id == tid && t.type == TokenType.REFRESH &&
    t.invalidated == false && !(decide (t.expiresAt < now)))

theorem any_map_congr {α : Type} {l : List α} {g : α → α} {p : α → Bool}
    (h : ∀ a ∈ l, p (g a) = p a) : (l.map g).any p = l.any p := by
  induction l with
  | nil => rfl
  | cons a t ih =>
    rw [List.map_cons, List.any_cons, List.any_cons, h a (List.mem_cons_self a t),
      ih (fun b hb => h b (List.mem_cons_of_mem a hb))]

theorem validRefreshRecord_addToken_mono {db : DB} {now : Time} {tid : String}
    (x : TokenRec) (h : validRefreshRecord db now tid = true) :
    validRefreshRecord (addToken db x) now tid = true := by
  unfold validRefreshRecord addToken at *
  simp only [List.any_append, h]
  rfl

theorem validRefreshRecord_addActivityLog (db : DB) (e : ActivityLog)
    (now : Time) (tid : String) :
    validRefreshRecord (addActivityLog db e) now tid = validRefreshRecord db now tid := rfl

/-- Invalidating every record with a given id kills that id's validity. -/
theorem validRefreshRecord_invalidateById (db : DB) (now : Time) (i : String) :
    validRefreshRecord
      (updateTokens db (fun t => t.id == i) (fun t => { t with invalidated := true }))
      now i = false := by
  unfold validRefreshRecord updateTokens
  simp only []
  rw [List.any_eq_false]
  intro x hx
  obtain ⟨t, _, ht⟩ := List.mem_map.mp hx
  by_cases hid : (t.id == i) = true
  · rw [← ht]
    simp [hid]
  · rw [← ht]
    simp only [hid, Bool.false_eq_true, if_false]
    simp only [Bool.and_eq_true]
    intro hcontra
    exact absurd hcontra.1.1.1 (by simp [hid])

/-- An update that touches no record with the given id preserves validity. -/
theorem validRefreshRecord_updateTokens_untouched {db : DB} {now : Time} {tid : String}
    (p : TokenRec → Bool) (f : TokenRec → TokenRec)
    (hvalid : validRefreshRecord db now tid = true)
    (hp : ∀ t ∈ db.tokens, (t.id == tid) = true → p t = false) :
    validRefreshRecord (updateTokens db p f) now tid = true := by
  unfold validRefreshRecord at hvalid ⊢
  unfold updateTokens
  obtain ⟨t, htmem, htpred⟩ := List.any_eq_true.mp hvalid
  have hid : (t.id == tid) = true := by
    have := (Bool.and_eq_true _ _).mp ((Bool.and_eq_true _ _).mp
      ((Bool.and_eq_true _ _).mp htpred).1).1
    exact this.1
  refine List.any_eq_true.mpr ⟨(fun t => if p t then f t else t) t, List.mem_map_of_mem _ htmem, ?_⟩
  simp only [hp t htmem hid, Bool.false_eq_true, if_false]
  exact htpred

/-- A `lastUsed` touch preserves validity verbatim. -/
theorem validRefreshRecord_touch (db : DB) (p : TokenRec → Bool) (now₀ now : Time)
    (tid : String) :
    validRefreshRecord
      (updateTokens db p (fun t => { t with lastUsed := some now₀ })) now tid =
    validRefreshRecord db now tid := by
  unfold validRefreshRecord updateTokens
  simp only []
  exact any_map_congr (fun a _ => by by_cases h : p a = true <;> simp [h])

/-- The sequence of externally observable store states of the refresh flow
(initial state, then one state per committed write), as produced by
`refreshTokenFlow` on the success path. -/
def rotationStates (cfg : JwtConfig) (now : Time) (db : DB)
    (ipAddress deviceInfo : Option String) (u : User) (tr : TokenRec) : List DB :=
  let gAccess := generateToken cfg now ⟨u.id, u.email, u.role, none, none⟩ .ACCESS
  let accessId := genId db.nextId
  let db₁ := addToken db
    ⟨accessId, encodeJwt gAccess.1, .ACCESS, u.id, gAccess.2,
     false, some now, ipAddress, deviceInfo⟩
  let gRefresh := generateToken cfg now ⟨u.id, u.email, u.role, some accessId, none⟩ .REFRESH
  let refreshId := genId db₁.nextId
  let db₂ := addToken db₁
    ⟨refreshId, encodeJwt gRefresh.1, .REFRESH, u.id, gRefresh.2,
     false, some now, ipAddress, deviceInfo⟩
  let db₃ := updateTokens db₂ (fun t => t.id == tr.id)
    (fun t => { t with invalidated := true })
  let db₄ := updateTokens db₃ (fun t => t.id == accessId || t.id == refreshId)
    (fun t => { t with lastUsed := some now })
  let db₅ := addActivityLog db₄ ⟨"User", u.id, "TOKEN_REFRESH", u.id⟩
  [db, db₁, db₂, db₃, db₄, db₅]

/-- C2 (amended): the refresh flow's four writes are separately committed,
not transactional.  On the success path every observable state still has at
least one of the two refresh tokens valid and the final state has exactly
the new one valid, but there is an observable intermediate state in which
the old and the new refresh token are *both* valid. -/
theorem refresh_rotation_sequential (cfg : JwtConfig) (now : Time) (db : DB)
    (refreshTokenStr : String) (ip dev : Option String) (tr : TokenRec) (u : User)
    (hne : ¬ (refreshTokenStr = ""))
    (hfind : findTokenByStr db refreshTokenStr = some tr)
    (htyp : tr.type = TokenType.REFRESH)
    (hinv : tr.invalidated = false)
    (hexp : ¬ (tr.expiresAt < now))
    (huser : findUserById db tr.userId = some u)
    (hact : u.isActive = true)
    (hfresh1 : genId db.nextId ∉ db.tokens.map (fun t => t.id))
    (hfresh2 : genId (db.nextId + 1) ∉ db.tokens.map (fun t => t.id)) :
    (refreshTokenFlow cfg now db refreshTokenStr ip dev).1 =
        rotationStates cfg now db ip dev u tr
    ∧ (refreshTokenFlow cfg now db refreshTokenStr ip dev).2.isOk = true
    ∧ (∀ s ∈ rotationStates cfg now db ip dev u tr,
        validRefreshRecord s now tr.id = true ∨
        validRefreshRecord s now (genId (db.nextId + 1)) = true)
    ∧ (∃ s ∈ rotationStates cfg now db ip dev u tr,
        validRefreshRecord s now tr.id = true ∧
        validRefreshRecord s now (genId (db.nextId + 1)) = true)
    ∧ (∀ s, (rotationStates cfg now db ip dev u tr).getLast? = some s →
        validRefreshRecord s now tr.id = false ∧
        validRefreshRecord s now (genId (db.nextId + 1)) = true) := by
  have htr_mem : tr ∈ db.tokens := List.mem_of_find?_eq_some hfind
  have htrid_ne1 : ¬ (tr.id = genId db.nextId) := by
    intro hcontra
    exact hfresh1 (hcontra ▸ List.mem_map_of_mem _ htr_mem)
  have htrid_ne2 : ¬ (tr.id = genId (db.nextId + 1)) := by
    intro hcontra
    exact hfresh2 (hcontra ▸ List.mem_map_of_mem _ htr_mem)
  have hrun : refreshTokenFlow cfg now db refreshTokenStr ip dev =
      (rotationStates cfg now db ip dev u tr,
       .ok ⟨(generateToken cfg now ⟨u.id, u.email, u.role, none, none⟩ .ACCESS).1,
            (generateToken cfg now ⟨u.id, u.email, u.role, none, none⟩ .ACCESS).2,
            (generateToken cfg now
              ⟨u.id, u.email, u.role, some (genId db.nextId), none⟩ .REFRESH).1,
            (generateToken cfg now
              ⟨u.id, u.email, u.role, some (genId db.nextId), none⟩ .REFRESH).2⟩) := by
    unfold refreshTokenFlow
    rw [if_neg hne, hfind]
    simp only []
    rw [if_neg (by simp [htyp, hinv]), if_neg hexp, huser]
    simp [hact]
    rfl
  -- named states
  set gAccess := generateToken cfg now ⟨u.id, u.email, u.role, none, none⟩ .ACCESS with hga
  set gRefresh := generateToken cfg now
    ⟨u.id, u.email, u.role, some (genId db.nextId), none⟩ .REFRESH with hgr
  set accRec : TokenRec :=
    ⟨genId db.nextId, encodeJwt gAccess.1, .ACCESS, u.id, gAccess.2,
     false, some now, ip, dev⟩ with hacc
  set refRec : TokenRec :=
    ⟨genId (db.nextId + 1), encodeJwt gRefresh.1, .REFRESH, u.id, gRefresh.2,
     false, some now, ip, dev⟩ with href
  have hstates : rotationStates cfg now db ip dev u tr =
      [db, addToken db accRec, addToken (addToken db accRec) refRec,
       updateTokens (addToken (addToken db accRec) refRec)
         (fun t => t.id == tr.id) (fun t => { t with invalidated := true }),
       updateTokens (updateTokens (addToken (addToken db accRec) refRec)
           (fun t => t.id == tr.id) (fun t => { t with invalidated := true }))
         (fun t => t.id == genId db.nextId || t.id == genId (db.nextId + 1))
         (fun t => { t with lastUsed := some now }),
       addActivityLog
         (updateTokens (updateTokens (addToken (addToken db accRec) refRec)
             (fun t => t.id == tr.id) (fun t => { t with invalidated := true }))
           (fun t => t.id == genId db.nextId || t.id == genId (db.nextId + 1))
           (fun t => { t with lastUsed := some now }))
         ⟨"User", u.id, "TOKEN_REFRESH", u.id⟩] := rfl
  -- validity of the old record in the initial state
  have hv0 : validRefreshRecord db now tr.id = true := by
    refine List.any_eq_true.mpr ⟨tr, htr_mem, ?_⟩
    simp [htyp, hinv, hexp]
  have hv1 : validRefreshRecord (addToken db accRec) now tr.id = true :=
    validRefreshRecord_addToken_mono accRec hv0
  have hv2old : validRefreshRecord (addToken (addToken db accRec) refRec) now tr.id = true :=
    validRefreshRecord_addToken_mono refRec hv1
  -- validity of the new record once created
  have hrefpred : (refRec.id == genId (db.nextId + 1) && refRec.type == TokenType.REFRESH &&
      refRec.invalidated == false && !(decide (refRec.expiresAt < now))) = true := by
    have hexpiry : ¬ (refRec.expiresAt < now) := by
      have h2 : refRec.expiresAt =
          now + (tokenExpiresInMs cfg TokenType.REFRESH : Int) := rfl
      rw [h2]
      simp only [not_lt]
      exact le_add_of_nonneg_right (Int.natCast_nonneg _)
    simp [href, hexpiry]
  have hv2new : validRefreshRecord (addToken (addToken db accRec) refRec) now
      (genId (db.nextId + 1)) = true := by
    refine List.any_eq_true.mpr ⟨refRec, ?_, hrefpred⟩
    show refRec ∈ (db.tokens ++ [accRec]) ++ [refRec]
    simp
  have hv3old : validRefreshRecord
      (updateTokens (addToken (addToken db accRec) refRec)
        (fun t => t.id == tr.id) (fun t => { t with invalidated := true }))
      now tr.id = false :=
    validRefreshRecord_invalidateById (addToken (addToken db accRec) refRec) now tr.id
  have hv3new : validRefreshRecord
      (updateTokens (addToken (addToken db accRec) refRec)
        (fun t => t.id == tr.id) (fun t => { t with invalidated := true }))
      now (genId (db.nextId + 1)) = true := by
    refine validRefreshRecord_updateTokens_untouched _ _ hv2new ?_
    intro t _ hid
    have hteq : t.id = genId (db.nextId + 1) := by simpa using hid
    have : ¬ (t.id = tr.id) := by
      rw [hteq]
      intro hcontra
      exact htrid_ne2 hcontra.symm
    simpa using this
  have hv4old : validRefreshRecord
      (updateTokens (updateTokens (addToken (addToken db accRec) refRec)
          (fun t => t.id == tr.id) (fun t => { t with invalidated := true }))
        (fun t => t.id == genId db.nextId || t.id == genId (db.nextId + 1))
        (fun t => { t with lastUsed := some now }))
      now tr.id = false := by
    rw [validRefreshRecord_touch]
    exact hv3old
  have hv4new : validRefreshRecord
      (updateTokens (updateTokens (addToken (addToken db accRec) refRec)
          (fun t => t.id == tr.id) (fun t => { t with invalidated := true }))
        (fun t => t.id == genId db.nextId || t.id == genId (db.nextId + 1))
        (fun t => { t with lastUsed := some now }))
      now (genId (db.nextId + 1)) = true := by
    rw [validRefreshRecord_touch]
    exact hv3new
  refine ⟨by rw [hrun], by rw [hrun]; rfl, ?_, ?_, ?_⟩
  · intro s hs
    rw [hstates] at hs
    simp only [List.mem_cons, List.not_mem_nil, or_false] at hs
    rcases hs with rfl | rfl | rfl | rfl | rfl | rfl
    · exact Or.inl hv0
    · exact Or.inl hv1
    · exact Or.inl hv2old
    · exact Or.inr hv3new
    · exact Or.inr hv4new
    · exact Or.inr (by rw [validRefreshRecord_addActivityLog]; exact hv4new)
  · refine ⟨addToken (addToken db accRec) refRec, ?_, hv2old, hv2new⟩
    rw [hstates]
    simp
  · intro s hs
    rw [hstates] at hs
    have hlast : addActivityLog
        (updateTokens (updateTokens (addToken (addToken db accRec) refRec)
            (fun t => t.id == tr.id) (fun t => { t with invalidated := true }))
          (fun t => t.id == genId db.nextId || t.id == genId (db.nextId + 1))
          (fun t => { t with lastUsed := some now }))
        ⟨"User", u.id, "TOKEN_REFRESH", u.id⟩ = s := by
      simpa using hs
    rw [← hlast]
    exact ⟨by rw [validRefreshRecord_addActivityLog]; exact hv4old,
      by rw [validRefreshRecord_addActivityLog]; exact hv4new⟩

def refreshUserW : User :=
  ⟨"u1", "a@b.com", bcryptHash "pw", "Alice", .STAFF, true, true, false, none, none⟩

def oldRefreshTokW : SignedToken :=
  (generateToken cfgW 500 ⟨"u1", "a@b.com", .STAFF, some "a0", none⟩ .REFRESH).1

def oldRefreshRecW : TokenRec :=
  ⟨"r1", encodeJwt oldRefreshTokW, .REFRESH, "u1", 2000000, false, none, none, none⟩

def dbRefreshW : DB := { dbEmpty with users := [refreshUserW], tokens := [oldRefreshRecW] }

set_option maxRecDepth 100000 in
/-- C2 counterexample: on a concrete store holding one valid refresh token,
the refresh flow passes through an externally observable intermediate state
in which the old refresh token and the newly created one are *both* valid —
contradicting the claim that no such state exists. -/
theorem refresh_rotation_not_atomic_cex :
    ((refreshTokenFlow cfgW 1000 dbRefreshW (encodeJwt oldRefreshTokW) none none).1.any
      (fun s => validRefreshRecord s 1000 "r1" && validRefreshRecord s 1000 "tok1")) = true := by
  rfl

set_option maxRecDepth 100000 in
theorem refresh_rotation_sequential_witness :
    (refreshTokenFlow cfgW 1000 dbRefreshW (encodeJwt oldRefreshTokW) none none).2.isOk = true
    ∧ ∃ s ∈ rotationStates cfgW 1000 dbRefreshW none none refreshUserW oldRefreshRecW,
        validRefreshRecord s 1000 oldRefreshRecW.id = true ∧
        validRefreshRecord s 1000 (genId (dbRefreshW.nextId + 1)) = true :=
  have h := refresh_rotation_sequential cfgW 1000 dbRefreshW (encodeJwt oldRefreshTokW)
    none none oldRefreshRecW refreshUserW
    (by decide) (by rfl) (by rfl) (by rfl) (by decide) (by rfl) (by rfl)
    (by decide) (by decide)
  ⟨h.2.1, h.2.2.2.1⟩

/-! ## C4 — logout: single device, all devices, and the paired refresh token -/

theorem invalidated_of_ite (q : Bool) (r : TokenRec) :
    (if q = true then { r with invalidated := true } else r).invalidated =
      (r.invalidated || q) := by
  cases q
  · simp
  · simp

/-- C4 (amended): single-device logout invalidates the record with the given
token id together with exactly those REFRESH records of the user whose
*stored token string* contains the id as a substring — every other record
keeps its invalidated flag; all-devices logout invalidates every ACCESS and
REFRESH record of the user; logout with neither a token id nor `allDevices`
fails with a BadRequest error. -/
theorem logout_invalidation_behavior (db : DB) (userId tid : String)
    (tokRec : TokenRec)
    (huid : ¬ (userId = ""))
    (hfind : findTokenById db tid = some tokRec)
    (hown : tokRec.userId = userId) :
    ((logout db userId (some tid) false).2 = .ok ⟨true, "Logged out successfully"⟩)
    ∧ (∀ i rec, findTokenById db i = some rec →
        (findTokenById (logout db userId (some tid) false).1 i).map
            (fun t => t.invalidated) =
          some (rec.invalidated ||
            (rec.id == tid ||
              (rec.type == TokenType.REFRESH && rec.userId == userId &&
                strContains rec.token tid))))
    ∧ ((logout db userId none true).2 = .ok ⟨true, "Logged out from all devices"⟩)
    ∧ (∀ i rec, findTokenById db i = some rec →
        (findTokenById (logout db userId none true).1 i).map
            (fun t => t.invalidated) =
          some (rec.invalidated ||
            (rec.userId == userId &&
              (rec.type == TokenType.ACCESS || rec.type == TokenType.REFRESH))))
    ∧ (logout db userId none false =
        (db, .error ⟨"Token ID required for logout", BAD_REQUEST⟩)) := by
  have hrun_single : logout db userId (some tid) false =
      (addActivityLog
        (updateTokens db
          (fun t => t.id == tid ||
            (t.type == TokenType.REFRESH && t.userId == userId && strContains t.token tid))
          (fun t => { t with invalidated := true }))
        ⟨"User", userId, "LOGOUT", userId⟩,
       .ok ⟨true, "Logged out successfully"⟩) := by
    unfold logout
    rw [if_neg huid]
    simp only [Bool.false_eq_true, if_false]
    rw [hfind]
    simp only []
    rw [if_neg (by simp [hown])]
  have hrun_all : logout db userId none true =
      (addActivityLog
        (updateTokens db
          (fun t => t.userId == userId && t.invalidated == false &&
            (t.type == TokenType.ACCESS || t.type == TokenType.REFRESH))
          (fun t => { t with invalidated := true }))
        ⟨"User", userId, "LOGOUT_ALL", userId⟩,
       .ok ⟨true, "Logged out from all devices"⟩) := by
    unfold logout
    rw [if_neg huid]
    rfl
  refine ⟨by rw [hrun_single], ?_, by rw [hrun_all], ?_, ?_⟩
  · intro i rec hrec
    rw [hrun_single]
    show (findTokenById (updateTokens db
      (fun t => t.id == tid ||
        (t.type == TokenType.REFRESH && t.userId == userId && strContains t.token tid))
      (fun t => { t with invalidated := true })) i).map (fun t => t.invalidated) = _
    rw [findTokenById_updateTokens db
      (fun t => t.id == tid ||
        (t.type == TokenType.REFRESH && t.userId == userId && strContains t.token tid))
      (fun t => { t with invalidated := true }) (fun t => rfl) i, hrec]
    simp only [Option.map_some']
    rw [invalidated_of_ite]
  · intro i rec hrec
    rw [hrun_all]
    show (findTokenById (updateTokens db
      (fun t => t.userId == userId && t.invalidated == false &&
        (t.type == TokenType.ACCESS || t.type == TokenType.REFRESH))
      (fun t => { t with invalidated := true })) i).map (fun t => t.invalidated) = _
    rw [findTokenById_updateTokens db
      (fun t => t.userId == userId && t.invalidated == false &&
        (t.type == TokenType.ACCESS || t.type == TokenType.REFRESH))
      (fun t => { t with invalidated := true }) (fun t => rfl) i, hrec]
    simp only [Option.map_some']
    rw [invalidated_of_ite]
    cases hold : rec.invalidated
    · simp
    · simp
  · unfold logout
    rw [if_neg huid]
    rfl

def loginUserW : User :=
  ⟨"u1", "a@b.com", bcryptHash "Aa1!aaaa", "Alice", .STAFF, true, true, false, none, none⟩

def dbLoginW : DB := { dbEmpty with users := [loginUserW] }

/-- The store after a rememberMe login on `dbLoginW`: an ACCESS record
`tok0` plus a REFRESH record `tok1` whose signed payload embeds `tok0`. -/
def dbAfterLoginW : DB := (login cfgW 1000 dbLoginW "a@b.com" "Aa1!aaaa" none none true).1

def pairedRefreshW : SignedToken :=
  (generateToken cfgW 1000 ⟨"u1", "a@b.com", .STAFF, some "tok0", none⟩ .REFRESH).1

set_option maxRecDepth 1000000 in
/-- C4 counterexample: after a rememberMe login, the user's only REFRESH
record stores the base64url-encoded JWT whose payload embeds the access
record id `tok0`; single-device logout with `tok0` succeeds, yet no REFRESH
record of the user is invalidated — the raw id is not a substring of the
base64url wire string, so the `contains` filter never matches the paired
refresh token, contradicting the claim. -/
theorem logout_paired_refresh_not_invalidated_cex :
    (dbAfterLoginW.tokens.filter (fun t => t.type == TokenType.REFRESH &&
        t.userId == "u1")).map (fun t => t.token) = [encodeJwt pairedRefreshW]
    ∧ pairedRefreshW.payload.tokenId = some "tok0"
    ∧ (logout dbAfterLoginW "u1" (some "tok0") false).2 =
        .ok ⟨true, "Logged out successfully"⟩
    ∧ ((logout dbAfterLoginW "u1" (some "tok0") false).1.tokens.filter
        (fun t => t.type == TokenType.REFRESH && t.userId == "u1" &&
          t.invalidated)).length = 0 := by
  exact ⟨by rfl, by rfl, by rfl, by rfl⟩

set_option maxRecDepth 1000000 in
theorem logout_invalidation_behavior_witness :
    ((logout dbAfterLoginW "u1" (some "tok0") false).2 =
        .ok ⟨true, "Logged out successfully"⟩)
    ∧ (logout dbAfterLoginW "u1" none false =
        (dbAfterLoginW, .error ⟨"Token ID required for logout", BAD_REQUEST⟩)) :=
  have h := logout_invalidation_behavior dbAfterLoginW "u1" "tok0"
    ((login cfgW 1000 dbLoginW "a@b.com" "Aa1!aaaa" none none true).1.tokens.getD 0
      ⟨"", "", .ACCESS, "", 0, false, none, none, none⟩)
    (by decide) (by rfl) (by rfl)
  ⟨h.1, h.2.2.2.2⟩

/-! ## C1 — the login flow never reaches the lockout machinery -/

def dbLockedLoginW : DB :=
  { dbEmpty with users :=
    [⟨"u1", "a@b.com", bcryptHash "Aa1!aaaa", "Alice", .STAFF, true, true, true,
      some 2000000000, none⟩] }

def dbFailsW : DB :=
  { dbEmpty with
    users := [loginUserW],
    loginAttempts := [⟨"u1", false, "IP_ADDRESS", 100⟩, ⟨"u1", false, "IP_ADDRESS", 200⟩,
      ⟨"u1", false, "IP_ADDRESS", 300⟩, ⟨"u1", false, "IP_ADDRESS", 400⟩] }

set_option maxRecDepth 1000000 in
/-- C1: the login flow is not wired to the Security Policy Engine.
(i) A failed login leaves the store completely unchanged — no LoginAttempt
row is recorded, so no number of consecutive failures can ever reach the
lockout threshold through `login`.  (ii) A user who *is* LOCKED (flag set,
expiry in the future) still logs in successfully with correct credentials —
no TooManyRequests rejection.  (iii) `handleFailedLoginAttempt` itself, had
it been called, would lock at the threshold and throw TooManyRequests. -/
theorem login_never_locks_out :
    (login cfgW 1000 dbLoginW "a@b.com" "wrong-pw" none none false) =
      (dbLoginW, .error ⟨"Invalid email or password", UNAUTHORIZED⟩)
    ∧ (login cfgW 1000 dbLockedLoginW "a@b.com" "Aa1!aaaa" none none false).2.isOk = true
    ∧ (handleFailedLoginAttempt scfgW 1000 dbFailsW "a@b.com").2 =
        .error ⟨"Account locked due to too many failed attempts", TOO_MANY_REQUESTS⟩
    ∧ ((handleFailedLoginAttempt scfgW 1000 dbFailsW "a@b.com").1.users.map
        (fun u => u.isLocked)) = [true] := by
  exact ⟨by rfl, by rfl, by rfl, by rfl⟩

end InvenEase
